import Mathlib

/-! Verification of the fensql repository (src/fensql.c, src/input_buffer.h).

The C source is shallowly embedded: byte buffers become `List Nat`, the
`Row` struct becomes a structure of a `Nat` id and two byte lists (the
fixed-width `char[]` fields), `memcpy` at an offset becomes `writeBytes`,
and the REPL dispatch functions become total Lean functions returning the
values the C functions return (with process exit modelled explicitly).
The in-memory paged table engine that the spec describes is not present in
the C source (statement execution is stubbed); it is modelled from the
spec in the second half of this file.
-/

namespace Fensql

set_option maxRecDepth 10000

/-- Bytes are modelled as natural numbers (a C `char` / `uint8_t` value). -/
abbrev Byte := Nat

/-- Overwrite `src.length` bytes of `dest` starting at offset `off`
(the effect of `memcpy(dest + off, src, src.length)`). -/
def writeBytes (dest : List Byte) (off : Nat) (src : List Byte) : List Byte :=
  dest.take off ++ src ++ dest.drop (off + src.length)

/-- Read `n` bytes of `l` starting at offset `off`
(the effect of `memcpy(out, l + off, n)`). -/
def readBytes (l : List Byte) (off n : Nat) : List Byte :=
  (l.drop off).take n

/-- Null-pad a byte list to width `n` (the contents of a fixed-width
`char[n]` field holding a string of at most `n` bytes). -/
def padTo (n : Nat) (l : List Byte) : List Byte :=
  l ++ List.replicate (n - l.length) 0

-- Constants from src/fensql.c (lines 36-55).

/-- C: `#define COLUMN_USERNAME_SIZE 32`. -/
def COLUMN_USERNAME_SIZE : Nat := 32

/-- C: `#define COLUMN_EMAIL_SIZE 255`. -/
def COLUMN_EMAIL_SIZE : Nat := 255

/-- C: `#define TABLE_MAX_PAGES 100`. -/
def TABLE_MAX_PAGES : Nat := 100

/-- C: `const uint32_t PAGE_SIZE = 4096;`. -/
def PAGE_SIZE : Nat := 4096

/-- C: `ID_SIZE = size_of_attribute(Row, id)`, i.e. `sizeof(uint32_t) = 4`. -/
def ID_SIZE : Nat := 4

/-- C: `USERNAME_SIZE = size_of_attribute(Row, username)`. -/
def USERNAME_SIZE : Nat := COLUMN_USERNAME_SIZE

/-- C: `EMAIL_SIZE = size_of_attribute(Row, email)`. -/
def EMAIL_SIZE : Nat := COLUMN_EMAIL_SIZE

/-- C: `const uint32_t ID_OFFSET = 0;`. -/
def ID_OFFSET : Nat := 0

/-- C: `USERNAME_OFFSET = ID_OFFSET + ID_SIZE`. -/
def USERNAME_OFFSET : Nat := ID_OFFSET + ID_SIZE

/-- C: `EMAIL_OFFSET = USERNAME_OFFSET + USERNAME_SIZE`. -/
def EMAIL_OFFSET : Nat := USERNAME_OFFSET + USERNAME_SIZE

/-- C: `ROW_SIZE = ID_SIZE + USERNAME_SIZE + EMAIL_SIZE`. -/
def ROW_SIZE : Nat := ID_SIZE + USERNAME_SIZE + EMAIL_SIZE

/-- C: `ROWS_PER_PAGE = PAGE_SIZE / ROW_SIZE` (truncating `uint32_t` division). -/
def ROWS_PER_PAGE : Nat := PAGE_SIZE / ROW_SIZE

/-- C: `TABLE_MAX_ROWS = ROWS_PER_PAGE * TABLE_MAX_PAGES`. -/
def TABLE_MAX_ROWS : Nat := ROWS_PER_PAGE * TABLE_MAX_PAGES

/-- The C `Row` struct: a `uint32_t` id and two fixed-width `char[]` fields.
The byte lists hold the full field contents (32 resp. 255 bytes in a
well-formed struct value). -/
structure Row where
  id : Nat
  username : List Byte
  email : List Byte
deriving DecidableEq, Repr

/-- The four bytes of the in-memory representation of a `uint32_t`
(little-endian, as `memcpy` copies it on the target platform). -/
def idBytes (n : Nat) : List Byte :=
  [n % 256, n / 256 % 256, n / 65536 % 256, n / 16777216 % 256]

/-- Reassemble a `uint32_t` from its four memory bytes. -/
def decodeId (l : List Byte) : Nat :=
  l.getD 0 0 + 256 * l.getD 1 0 + 65536 * l.getD 2 0 + 16777216 * l.getD 3 0

/-- C `serialize_row` (src/fensql.c:65-69): three `memcpy` calls writing the
id, username and email fields into `destination` at the fixed offsets. -/
def serialize_row (source : Row) (destination : List Byte) : List Byte :=
  writeBytes
    (writeBytes
      (writeBytes destination ID_OFFSET (idBytes source.id))
      USERNAME_OFFSET source.username)
    EMAIL_OFFSET source.email

/-- C `deserialize_row` (src/fensql.c:71-75): three `memcpy` calls reading the
id, username and email fields from `source` at the fixed offsets. -/
def deserialize_row (source : List Byte) : Row :=
  { id := decodeId (readBytes source ID_OFFSET ID_SIZE)
    username := readBytes source USERNAME_OFFSET USERNAME_SIZE
    email := readBytes source EMAIL_OFFSET EMAIL_SIZE }

-- REPL layer from src/fensql.c (meta commands, statement preparation,
-- stubbed statement execution, main loop body).

/-- The C `Table` struct (src/fensql.c:79-82): a row counter and a fixed
array of `TABLE_MAX_PAGES` page pointers (`none` = NULL, `some pg` = an
allocated 4096-byte block). -/
structure Table where
  num_rows : Nat
  pages : List (Option (List Byte))
deriving DecidableEq

/-- C `MetaCommandResult` enum (src/fensql.c:86-89). -/
inductive MetaCommandResult where
  | META_COMMAND_SUCCESS
  | META_COMMAND_UNRECOGNIZED_COMMAND
deriving DecidableEq

/-- What a call to `execute_meta_command` does: either the process exits
(the `exit(EXIT_SUCCESS)` call) or the function returns a
`MetaCommandResult` value. -/
inductive MetaAction where
  | exitProcess (code : Nat)
  | ret (r : MetaCommandResult)
deriving DecidableEq

/-- C `execute_meta_command` (src/fensql.c:91-97): `strcmp` with ".exit"
exits the process with `EXIT_SUCCESS`; anything else returns
`META_COMMAND_UNRECOGNIZED_COMMAND`. -/
def execute_meta_command (input_buffer : List Char) : MetaAction :=
  if input_buffer = ".exit".toList then .exitProcess 0
  else .ret .META_COMMAND_UNRECOGNIZED_COMMAND

/-- C `StatementType` enum (src/fensql.c:100-103). -/
inductive StatementType where
  | STATEMENT_INSERT
  | STATEMENT_SELECT
deriving DecidableEq

/-- C `Statement` struct (src/fensql.c:105-108). -/
structure Statement where
  type : StatementType
  row_to_insert : Row
deriving DecidableEq

/-- C `PrepareResult` enum (src/fensql.c:110-114). -/
inductive PrepareResult where
  | PREPARE_SUCCESS
  | PREPARE_SYNTAX_ERROR
  | PREPARE_UNRECOGNIZED_STATEMENT
deriving DecidableEq

/-- C `isspace` for the default locale: space, \t, \n, \v, \f, \r
(the whitespace that `sscanf` directives skip). -/
def c_isspace (c : Char) : Bool :=
  c == ' ' || c == '\t' || c == '\n' || c == '\x0b' || c == '\x0c' || c == '\r'

/-- Decimal value of a digit string. -/
def digitsVal (ds : List Char) : Nat :=
  ds.foldl (fun a c => a * 10 + (c.toNat - 48)) 0

/-- The `%d` conversion of `sscanf`: skip whitespace, optional sign, at
least one decimal digit; `none` models a matching failure. -/
def parseInt (l : List Char) : Option (Int × List Char) :=
  let l1 := l.dropWhile c_isspace
  match l1 with
  | '-' :: rest =>
    let ds := rest.takeWhile Char.isDigit
    if ds.isEmpty then none
    else some (-(digitsVal ds : Int), rest.drop ds.length)
  | '+' :: rest =>
    let ds := rest.takeWhile Char.isDigit
    if ds.isEmpty then none
    else some ((digitsVal ds : Int), rest.drop ds.length)
  | _ =>
    let ds := l1.takeWhile Char.isDigit
    if ds.isEmpty then none
    else some ((digitsVal ds : Int), l1.drop ds.length)

/-- The `%s` conversion of `sscanf`: skip whitespace, then at least one
non-whitespace character, with no bound on the token length. -/
def parseStr (l : List Char) : Option (List Char × List Char) :=
  let l1 := l.dropWhile c_isspace
  let tk := l1.takeWhile (fun c => !(c_isspace c))
  if tk.isEmpty then none else some (tk, l1.drop tk.length)

/-- Storing an `int` parsed by `%d` into the `uint32_t` id field
(two's-complement wrap modulo 2^32). -/
def intToUint32 (n : Int) : Nat := (n % 4294967296).toNat

/-- C `prepare_statement` (src/fensql.c:116-141): `strncmp` of the first 6
characters against "insert" selects the insert branch, which sets the
statement type and then runs `sscanf("insert %d %s %s")`, succeeding only
when all three conversions succeed; an exact match of "select" selects the
select branch; everything else is unrecognized. The parsed username and
email tokens are stored without any length check. -/
def prepare_statement (input_buffer : List Char) (statement : Statement) :
    PrepareResult × Statement :=
  if input_buffer.take 6 = "insert".toList then
    let st1 : Statement := { statement with type := .STATEMENT_INSERT }
    match parseInt (input_buffer.drop 6) with
    | none => (.PREPARE_SYNTAX_ERROR, st1)
    | some (n, r1) =>
      let st2 : Statement :=
        { st1 with row_to_insert := { st1.row_to_insert with id := intToUint32 n } }
      match parseStr r1 with
      | none => (.PREPARE_SYNTAX_ERROR, st2)
      | some (u, r2) =>
        let st3 : Statement :=
          { st2 with row_to_insert :=
              { st2.row_to_insert with username := u.map Char.toNat } }
        match parseStr r2 with
        | none => (.PREPARE_SYNTAX_ERROR, st3)
        | some (e, _) =>
          (.PREPARE_SUCCESS,
            { st3 with row_to_insert :=
                { st3.row_to_insert with email := e.map Char.toNat } })
  else if input_buffer = "select".toList then
    (.PREPARE_SUCCESS, { statement with type := .STATEMENT_SELECT })
  else
    (.PREPARE_UNRECOGNIZED_STATEMENT, statement)

/-- A row value with all fields zero/empty. -/
def emptyRow : Row := { id := 0, username := [], email := [] }

/-- The spec scenario row: id 1, username "fendross", email
"foo@bar.com" (as byte lists). -/
def scenarioRow : Row :=
  { id := 1, username := [102, 101, 110, 100, 114, 111, 115, 115],
    email := [102, 111, 111, 64, 98, 97, 114, 46, 99, 111, 109] }

/-- The uninitialized local `Statement statement;` of `main`. -/
def defaultStatement : Statement :=
  { type := .STATEMENT_INSERT, row_to_insert := emptyRow }

/-- The program state visible to the REPL loop: the (declared but unused)
table and the input buffer contents. -/
structure ProgState where
  table : Table
  input_buffer : List Char
deriving DecidableEq

/-- C `execute_statement` (src/fensql.c:143-152): a switch on the statement
type whose branches only call `printf` with a placeholder message; the
program state is passed through untouched. -/
def execute_statement (statement : Statement) (st : ProgState) :
    ProgState × List String :=
  match statement.type with
  | .STATEMENT_INSERT => (st, ["Insert statement called here.\n"])
  | .STATEMENT_SELECT => (st, ["Select statement called here.\n"])

/-- Outcome of one iteration of the `while (true)` loop of `main`: either
the loop continues with a new state, or the process exits with a code. -/
inductive ReplOutcome where
  | continued (st : ProgState) (output : List String)
  | exited (code : Nat) (output : List String)
deriving DecidableEq

/-- One iteration of `main`'s loop (src/fensql.c:190-220): print the
prompt, read a line (`none` models `getline` failure or end of input,
which exits with `EXIT_FAILURE`), dispatch meta commands for lines whose
first byte is a dot, otherwise prepare and execute the statement. -/
def replStep (inp : Option (List Char)) (st : ProgState) : ReplOutcome :=
  match inp with
  | none => .exited 1 ["fensql> ", "Error reading input.\n"]
  | some buf =>
    let st1 : ProgState := { st with input_buffer := buf }
    match buf with
    | '.' :: _ =>
      (match execute_meta_command buf with
       | .exitProcess code => .exited code ["fensql> "]
       | .ret .META_COMMAND_SUCCESS => .continued st1 ["fensql> "]
       | .ret .META_COMMAND_UNRECOGNIZED_COMMAND =>
         .continued st1 ["fensql> ",
           "Unrecognized command \x27" ++ String.mk buf ++ "\x27\n"])
    | _ =>
      (match prepare_statement buf defaultStatement with
       | (.PREPARE_SUCCESS, s) =>
         let res := execute_statement s st1
         .continued res.1 (["fensql> "] ++ res.2 ++ ["Executed statement.\n"])
       | (.PREPARE_SYNTAX_ERROR, _) =>
         .continued st1 ["fensql> ",
           "Syntax error detected for \x27" ++ String.mk buf ++ "\x27.\n"]
       | (.PREPARE_UNRECOGNIZED_STATEMENT, _) =>
         .continued st1 ["fensql> ",
           "Unrecognized keyword at the start of \x27" ++ String.mk buf ++ "\x27.\n"])

-- The paged row store engine. The C source declares the constants, the
-- codec and the Table struct but never wires them to execution, so the
-- engine operations below are modelled from the spec.

/-- Modelled from the spec: the error kinds of section 7 (the C source has
no executor and hence no error values for it). -/
inductive ExecError where
  | TableFull
  | CapacityExceeded
  | FieldTooLong
  | InvalidCursorState
deriving DecidableEq

/-- Modelled from the spec: `capacity() -> max_pages * rows_per_page`. -/
def capacity : Nat := TABLE_MAX_PAGES * ROWS_PER_PAGE

/-- A fresh table: zero rows, all `TABLE_MAX_PAGES` page slots NULL. -/
def emptyTable : Table := { num_rows := 0, pages := List.replicate TABLE_MAX_PAGES none }

/-- Modelled from the spec: `page_for(row_index) = row_index / rows_per_page`. -/
def page_for (row_index : Nat) : Nat := row_index / ROWS_PER_PAGE

/-- Modelled from the spec:
`offset_in_page(row_index) = (row_index % rows_per_page) * row_size`. -/
def offset_in_page (row_index : Nat) : Nat := (row_index % ROWS_PER_PAGE) * ROW_SIZE

/-- Modelled from the spec: `get_or_allocate_page` returns the existing
page or lazily allocates a zero-initialized 4096-byte block, failing with
`CapacityExceeded` when the page number is out of range (the allocator of
section 4.2, absent from the C source). -/
def get_or_allocate_page (t : Table) (page_num : Nat) :
    Except ExecError (List Byte × Table) :=
  if page_num < TABLE_MAX_PAGES then
    match t.pages.getD page_num none with
    | some pg => .ok (pg, t)
    | none => .ok (List.replicate PAGE_SIZE 0,
        { t with pages := t.pages.set page_num (some (List.replicate PAGE_SIZE 0)) })
  else .error .CapacityExceeded

/-- Encode a row into a fresh 291-byte buffer with `serialize_row`. -/
def encode (r : Row) : List Byte := serialize_row r (List.replicate ROW_SIZE 0)

/-- The fixed-width struct representation of a row whose text fields hold
at most 32 resp. 255 bytes: both fields null-padded to full width. -/
def padRow (r : Row) : Row :=
  { id := r.id
    username := padTo USERNAME_SIZE r.username
    email := padTo EMAIL_SIZE r.email }

/-- Modelled from the spec: `execute(Insert(row), table)` of section 4.5
fails with `TableFull` when `size() == capacity()`, refuses to encode an
oversized text field with `FieldTooLong` (section 7), and otherwise
encodes the row into the slot at index `num_rows` (allocating its page on
demand) and increments `num_rows`. -/
def executeInsert (r : Row) (t : Table) : Except ExecError Table :=
  if t.num_rows = capacity then .error .TableFull
  else if COLUMN_USERNAME_SIZE < r.username.length ∨ COLUMN_EMAIL_SIZE < r.email.length then
    .error .FieldTooLong
  else
    match get_or_allocate_page t (page_for t.num_rows) with
    | .error e => .error e
    | .ok (pg, t1) =>
      .ok { num_rows := t1.num_rows + 1
            pages := t1.pages.set (page_for t.num_rows)
              (some (writeBytes pg (offset_in_page t.num_rows) (encode (padRow r)))) }

/-- The 291 bytes of the slot of row `i` (an unallocated page reads as
zeros; a scan never reaches one). -/
def readSlot (t : Table) (i : Nat) : List Byte :=
  match t.pages.getD (page_for i) none with
  | some pg => readBytes pg (offset_in_page i) ROW_SIZE
  | none => List.replicate ROW_SIZE 0

/-- Strip the null padding of a fixed-width text field (the bytes a C
string consumer reads stop at the first null). -/
def stripField (l : List Byte) : List Byte := l.takeWhile (fun b => b != 0)

/-- Strip the padding of both text fields of a decoded row. -/
def stripRow (r : Row) : Row :=
  { id := r.id, username := stripField r.username, email := stripField r.email }

/-- Modelled from the spec: `execute(Select, table)` of section 4.5 scans
the slots from index 0 to `num_rows - 1` with a cursor, decoding each slot
in order (fields stripped of padding on decode, section 8). -/
def executeSelect (t : Table) : List Row :=
  (List.range t.num_rows).map (fun i => stripRow (deserialize_row (readSlot t i)))

/-- Run a sequence of inserts, stopping at the first failure. -/
def insertAll (rs : List Row) (t : Table) : Except ExecError Table :=
  match rs with
  | [] => .ok t
  | r :: rest =>
    match executeInsert r t with
    | .error e => .error e
    | .ok t1 => insertAll rest t1

/-- Run a sequence of inserts where a failed insert leaves the table
unchanged and the sequence continues (each command is recoverable). -/
def runInserts (rs : List Row) (t : Table) : Table :=
  match rs with
  | [] => t
  | r :: rest =>
    match executeInsert r t with
    | .error _ => runInserts rest t
    | .ok t1 => runInserts rest t1

/-- A row as supplied by the collaborator: a 32-bit id and null-free text
fields within the declared column widths. -/
def validContent (r : Row) : Prop :=
  r.id < 4294967296 ∧ r.username.length ≤ COLUMN_USERNAME_SIZE ∧
    r.email.length ≤ COLUMN_EMAIL_SIZE ∧
    (∀ b ∈ r.username, b ≠ 0) ∧ (∀ b ∈ r.email, b ≠ 0)

instance (r : Row) : Decidable (validContent r) := by
  unfold validContent
  infer_instance

/-- Invariant tying a table state to the sequence `prev` of rows inserted
so far: the row counter matches, every allocated page is a full 4096-byte
block, every page some stored row maps into is allocated, and the slot of
row `i` holds the encoding of the `i`-th inserted row. -/
def TableInv (prev : List Row) (t : Table) : Prop :=
  t.num_rows = prev.length ∧
  prev.length ≤ capacity ∧
  t.pages.length = TABLE_MAX_PAGES ∧
  (∀ p pg, t.pages.getD p none = some pg → pg.length = PAGE_SIZE) ∧
  (∀ p, ROWS_PER_PAGE * p < prev.length → t.pages.getD p none ≠ none) ∧
  (∀ i, i < prev.length → readSlot t i = encode (padRow (prev.getD i emptyRow)))

theorem length_writeBytes (dest src : List Byte) (off : Nat)
    (h : off + src.length ≤ dest.length) :
    (writeBytes dest off src).length = dest.length := by
  simp only [writeBytes, List.length_append, List.length_take, List.length_drop]
  omega

theorem readBytes_writeBytes_self (dest src : List Byte) (off : Nat)
    (h : off + src.length ≤ dest.length) :
    readBytes (writeBytes dest off src) off src.length = src := by
  have hlen : (dest.take off).length = off := by
    rw [List.length_take]
    omega
  unfold writeBytes readBytes
  rw [List.append_assoc]
  have h1 := List.drop_left (dest.take off) (src ++ dest.drop (off + src.length))
  rw [hlen] at h1
  rw [h1, List.take_left]

theorem readBytes_writeBytes_below (dest src : List Byte) (o1 n o2 : Nat)
    (hbelow : o1 + n ≤ o2) (hfit : o2 + src.length ≤ dest.length) :
    readBytes (writeBytes dest o2 src) o1 n = readBytes dest o1 n := by
  unfold writeBytes readBytes
  rw [List.append_assoc,
    List.drop_append_of_le_length (by rw [List.length_take]; omega),
    List.take_append_of_le_length (by rw [List.length_drop, List.length_take]; omega),
    List.drop_take, List.take_take]
  have hmin : n ⊓ (o2 - o1) = n := by omega
  rw [hmin]

theorem decodeId_idBytes (n : Nat) (h : n < 4294967296) :
    decodeId (idBytes n) = n := by
  simp only [idBytes, decodeId, List.getD_cons_zero, List.getD_cons_succ]
  omega

theorem length_idBytes (n : Nat) : (idBytes n).length = 4 := by
  simp [idBytes]

/-- On a 291-byte destination, `serialize_row` of a well-formed struct value
produces exactly the concatenation of the three field representations. -/
theorem serialize_row_eq (r : Row) (dest : List Byte)
    (hu : r.username.length = USERNAME_SIZE) (he : r.email.length = EMAIL_SIZE)
    (hd : dest.length = ROW_SIZE) :
    serialize_row r dest = idBytes r.id ++ r.username ++ r.email := by
  have hu' : r.username.length = 32 := hu
  have he' : r.email.length = 255 := he
  have hd' : dest.length = 291 := hd
  unfold serialize_row
  have hid := length_idBytes r.id
  -- first memcpy: id bytes at offset 0
  have e0 : writeBytes dest ID_OFFSET (idBytes r.id)
      = idBytes r.id ++ dest.drop 4 := by
    unfold writeBytes
    simp [ID_OFFSET, hid]
  rw [e0]
  have hlen0 : (idBytes r.id ++ dest.drop 4).length = 291 := by
    rw [List.length_append, hid, List.length_drop]
    omega
  -- second memcpy: username at offset 4
  have e1 : writeBytes (idBytes r.id ++ dest.drop 4) USERNAME_OFFSET r.username
      = idBytes r.id ++ r.username ++ (idBytes r.id ++ dest.drop 4).drop 36 := by
    unfold writeBytes
    have ht : (idBytes r.id ++ dest.drop 4).take USERNAME_OFFSET = idBytes r.id := by
      have h := List.take_left (idBytes r.id) (dest.drop 4)
      rw [hid] at h
      exact h
    rw [ht, hu']
    norm_num [USERNAME_OFFSET, ID_OFFSET, ID_SIZE]
  rw [e1]
  have hlen1 : (idBytes r.id ++ r.username
      ++ (idBytes r.id ++ dest.drop 4).drop 36).length = 291 := by
    simp only [List.length_append, List.length_drop, hid, hu', hlen0]
  -- third memcpy: email at offset 36
  unfold writeBytes
  have ht2 : (idBytes r.id ++ r.username
      ++ (idBytes r.id ++ dest.drop 4).drop 36).take EMAIL_OFFSET
      = idBytes r.id ++ r.username := by
    have hl : (idBytes r.id ++ r.username).length = 36 := by
      rw [List.length_append, hid, hu']
    have h := List.take_left (idBytes r.id ++ r.username)
      ((idBytes r.id ++ dest.drop 4).drop 36)
    rw [hl] at h
    exact h
  rw [ht2, he']
  have hdrop : (idBytes r.id ++ r.username
      ++ (idBytes r.id ++ dest.drop 4).drop 36).drop (EMAIL_OFFSET + 255) = [] := by
    apply List.drop_eq_nil_of_le
    rw [hlen1]
    decide
  rw [hdrop, List.append_nil]

/-- Reading the id field slice of a concatenated row buffer. -/
theorem readBytes_field_id (i u e : List Byte) (hi : i.length = ID_SIZE) :
    readBytes (i ++ u ++ e) ID_OFFSET ID_SIZE = i := by
  have hi' : i.length = 4 := hi
  unfold readBytes
  simp only [ID_OFFSET, List.drop_zero, List.append_assoc]
  have h := List.take_left i (u ++ e)
  rw [hi'] at h
  exact h

/-- Reading the username field slice of a concatenated row buffer. -/
theorem readBytes_field_username (i u e : List Byte)
    (hi : i.length = ID_SIZE) (hu : u.length = USERNAME_SIZE) :
    readBytes (i ++ u ++ e) USERNAME_OFFSET USERNAME_SIZE = u := by
  have hi' : i.length = 4 := hi
  have hu' : u.length = 32 := hu
  unfold readBytes
  rw [List.append_assoc]
  have hd : (i ++ (u ++ e)).drop USERNAME_OFFSET = u ++ e := by
    have h := List.drop_left i (u ++ e)
    rw [hi'] at h
    exact h
  rw [hd]
  have h := List.take_left u e
  rw [hu'] at h
  exact h

/-- Reading the email field slice of a concatenated row buffer. -/
theorem readBytes_field_email (i u e : List Byte)
    (hi : i.length = ID_SIZE) (hu : u.length = USERNAME_SIZE) (he : e.length = EMAIL_SIZE) :
    readBytes (i ++ u ++ e) EMAIL_OFFSET EMAIL_SIZE = e := by
  have hi' : i.length = 4 := hi
  have hu' : u.length = 32 := hu
  have he' : e.length = 255 := he
  unfold readBytes
  have hd : (i ++ u ++ e).drop EMAIL_OFFSET = e := by
    have hl : (i ++ u).length = 36 := by
      rw [List.length_append, hi', hu']
    have h := List.drop_left (i ++ u) e
    rw [hl] at h
    exact h
  rw [hd]
  have h := List.take_length e
  rw [he'] at h
  exact h

/-- Deserializing the concatenation of well-sized field representations
recovers each field. -/
theorem deserialize_row_append (i : List Byte) (u : List Byte) (e : List Byte)
    (hi : i.length = ID_SIZE) (hu : u.length = USERNAME_SIZE) (he : e.length = EMAIL_SIZE) :
    deserialize_row (i ++ u ++ e) = { id := decodeId i, username := u, email := e } := by
  unfold deserialize_row
  rw [readBytes_field_id i u e hi, readBytes_field_username i u e hi hu,
    readBytes_field_email i u e hi hu he]

/-- Core round-trip lemma for well-formed struct values on any 291-byte
destination buffer. -/
theorem roundtrip_struct (r : Row) (dest : List Byte)
    (hid : r.id < 4294967296)
    (hu : r.username.length = USERNAME_SIZE) (he : r.email.length = EMAIL_SIZE)
    (hd : dest.length = ROW_SIZE) :
    deserialize_row (serialize_row r dest) = r := by
  rw [serialize_row_eq r dest hu he hd,
    deserialize_row_append (idBytes r.id) r.username r.email (length_idBytes r.id) hu he,
    decodeId_idBytes r.id hid]

theorem length_padTo (n : Nat) (l : List Byte) (h : l.length ≤ n) :
    (padTo n l).length = n := by
  simp [padTo]
  omega

/-- Claim C3: the derived storage constants are exactly: row size 291
bytes, page size 4096 bytes, rows per page = floor(4096/291) = 14
(truncating integer division), max pages = 100, and maximum table
capacity = 14 * 100 = 1400 rows. -/
theorem claim_C3_constants :
    ROW_SIZE = 291 ∧ PAGE_SIZE = 4096 ∧ ROWS_PER_PAGE = PAGE_SIZE / ROW_SIZE ∧
    ROWS_PER_PAGE = 14 ∧ TABLE_MAX_PAGES = 100 ∧
    TABLE_MAX_ROWS = ROWS_PER_PAGE * TABLE_MAX_PAGES ∧ TABLE_MAX_ROWS = 1400 ∧
    capacity = 1400 := by
  decide

/-- Claim C1: for every valid row (32-bit id, username of at most 32
bytes, email of at most 255 bytes, stored in the fixed-width struct
fields by null padding), deserializing the buffer produced by
`serialize_row` yields the row back, field for field. -/
theorem claim_C1_roundtrip (i : Nat) (u e dest : List Byte)
    (hi : i < 4294967296) (hu : u.length ≤ COLUMN_USERNAME_SIZE)
    (he : e.length ≤ COLUMN_EMAIL_SIZE) (hd : dest.length = ROW_SIZE) :
    deserialize_row (serialize_row (padRow { id := i, username := u, email := e }) dest)
      = padRow { id := i, username := u, email := e } := by
  apply roundtrip_struct
  · exact hi
  · exact length_padTo USERNAME_SIZE u hu
  · exact length_padTo EMAIL_SIZE e he
  · exact hd

/-- Witness for claim C1: the spec scenario row (1, "fendross",
"foo@bar.com") round-trips through a 291-byte buffer. -/
theorem claim_C1_roundtrip_witness :
    deserialize_row (serialize_row
        (padRow { id := 1, username := [102, 101, 110, 100, 114, 111, 115, 115],
                  email := [102, 111, 111, 64, 98, 97, 114, 46, 99, 111, 109] })
        (List.replicate ROW_SIZE 0))
      = padRow { id := 1, username := [102, 101, 110, 100, 114, 111, 115, 115],
                 email := [102, 111, 111, 64, 98, 97, 114, 46, 99, 111, 109] } :=
  claim_C1_roundtrip 1 [102, 101, 110, 100, 114, 111, 115, 115]
    [102, 111, 111, 64, 98, 97, 114, 46, 99, 111, 109]
    (List.replicate ROW_SIZE 0) (by decide) (by decide) (by decide) (by decide)

/-- Claim C2: the serialized layout places id at offset 0 (4 bytes),
username at offset 4 (32 bytes) and email at offset 36 (255 bytes), for a
total of exactly 291 bytes; `serialize_row` writes each field at exactly
these offsets and `deserialize_row` reads them back from the same
offsets. -/
theorem claim_C2_layout (r : Row) (dest : List Byte)
    (hu : r.username.length = USERNAME_SIZE) (he : r.email.length = EMAIL_SIZE)
    (hd : dest.length = ROW_SIZE) :
    ID_OFFSET = 0 ∧ ID_SIZE = 4 ∧ USERNAME_OFFSET = 4 ∧ USERNAME_SIZE = 32 ∧
    EMAIL_OFFSET = 36 ∧ EMAIL_SIZE = 255 ∧ ROW_SIZE = 291 ∧
    (serialize_row r dest).length = ROW_SIZE ∧
    readBytes (serialize_row r dest) ID_OFFSET ID_SIZE = idBytes r.id ∧
    readBytes (serialize_row r dest) USERNAME_OFFSET USERNAME_SIZE = r.username ∧
    readBytes (serialize_row r dest) EMAIL_OFFSET EMAIL_SIZE = r.email ∧
    deserialize_row (serialize_row r dest) =
      { id := decodeId (readBytes (serialize_row r dest) ID_OFFSET ID_SIZE)
        username := readBytes (serialize_row r dest) USERNAME_OFFSET USERNAME_SIZE
        email := readBytes (serialize_row r dest) EMAIL_OFFSET EMAIL_SIZE } := by
  have hser := serialize_row_eq r dest hu he hd
  have hid := length_idBytes r.id
  refine ⟨rfl, rfl, rfl, rfl, rfl, rfl, rfl, ?_, ?_, ?_, ?_, rfl⟩
  · rw [hser]
    simp only [List.length_append, hid, hu, he]
    decide
  · rw [hser]
    exact readBytes_field_id _ _ _ hid
  · rw [hser]
    exact readBytes_field_username _ _ _ hid hu
  · rw [hser]
    exact readBytes_field_email _ _ _ hid hu he

/-- Witness for claim C2: the layout facts at a concrete padded row and a
zeroed 291-byte destination buffer. -/
theorem claim_C2_layout_witness :
    readBytes (serialize_row (padRow { id := 7, username := [97], email := [98] })
        (List.replicate ROW_SIZE 0)) USERNAME_OFFSET USERNAME_SIZE
      = (padRow { id := 7, username := [97], email := [98] }).username :=
  (claim_C2_layout (padRow { id := 7, username := [97], email := [98] })
    (List.replicate ROW_SIZE 0) (by decide) (by decide) (by decide)).2.2.2.2.2.2.2.2.2.1

/-- Claim C4: executing any prepared statement (insert or select) only
prints a placeholder message; no program state (table or input buffer) is
modified by statement execution. -/
theorem claim_C4_execute_stub (s : Statement) (st : ProgState) :
    (execute_statement s st).1 = st ∧
    ((execute_statement s st).2 = ["Insert statement called here.\n"] ∨
      (execute_statement s st).2 = ["Select statement called here.\n"]) := by
  cases s with
  | mk ty row => cases ty <;> simp [execute_statement]

theorem get_or_allocate_page_ok (t : Table) (pn : Nat) (pg : List Byte) (t2 : Table)
    (h : get_or_allocate_page t pn = .ok (pg, t2)) :
    t2.num_rows = t.num_rows ∧ t2.pages.length = t.pages.length := by
  unfold get_or_allocate_page at h
  by_cases hp : pn < TABLE_MAX_PAGES
  · rw [if_pos hp] at h
    cases hg : t.pages.getD pn none with
    | some q =>
      rw [hg] at h
      simp at h
      rw [← h.2]
      exact ⟨rfl, rfl⟩
    | none =>
      rw [hg] at h
      simp at h
      rw [← h.2]
      exact ⟨rfl, by simp [List.length_set]⟩
  · rw [if_neg hp] at h
    simp at h

theorem executeInsert_ok_num_rows (r : Row) (t t1 : Table)
    (h : executeInsert r t = .ok t1) :
    t.num_rows ≠ capacity ∧ t1.num_rows = t.num_rows + 1 := by
  unfold executeInsert at h
  by_cases h1 : t.num_rows = capacity
  · rw [if_pos h1] at h
    simp at h
  · rw [if_neg h1] at h
    refine ⟨h1, ?_⟩
    by_cases h2 : COLUMN_USERNAME_SIZE < r.username.length ∨ COLUMN_EMAIL_SIZE < r.email.length
    · rw [if_pos h2] at h
      simp at h
    · rw [if_neg h2] at h
      cases hga : get_or_allocate_page t (page_for t.num_rows) with
      | error e =>
        rw [hga] at h
        simp at h
      | ok pr =>
        obtain ⟨pg, t2⟩ := pr
        rw [hga] at h
        simp at h
        have hnr := (get_or_allocate_page_ok t _ pg t2 hga).1
        rw [← h]
        simp [hnr]

/-- Claim C5: for every sequence of inserts the row count never exceeds
the capacity of max_pages * rows_per_page rows; an insert at capacity
fails with TableFull and leaves the size unchanged; an insert below
capacity (of a row within the column widths) succeeds and increments the
row count by one. -/
theorem claim_C5_capacity :
    (∀ (rs : List Row) (t : Table), t.num_rows ≤ capacity →
      (runInserts rs t).num_rows ≤ capacity) ∧
    (∀ (r : Row) (t : Table), t.num_rows = capacity →
      executeInsert r t = .error .TableFull ∧ (runInserts [r] t).num_rows = t.num_rows) ∧
    (∀ (r : Row) (t : Table), t.num_rows < capacity →
      r.username.length ≤ COLUMN_USERNAME_SIZE → r.email.length ≤ COLUMN_EMAIL_SIZE →
      ∃ t1, executeInsert r t = .ok t1 ∧ t1.num_rows = t.num_rows + 1) := by
  refine ⟨?_, ?_, ?_⟩
  · intro rs
    induction rs with
    | nil => intro t h; simpa [runInserts] using h
    | cons r rest ih =>
      intro t h
      cases heq : executeInsert r t with
      | error e =>
        rw [runInserts, heq]
        exact ih t h
      | ok t1 =>
        rw [runInserts, heq]
        apply ih
        have hok := executeInsert_ok_num_rows r t t1 heq
        omega
  · intro r t h
    have h1 : executeInsert r t = .error .TableFull := by
      unfold executeInsert
      rw [if_pos h]
    refine ⟨h1, ?_⟩
    rw [runInserts, h1]
    rfl
  · intro r t hlt hu he
    have hnotfull : ¬ t.num_rows = capacity := by omega
    have hsize : ¬ (COLUMN_USERNAME_SIZE < r.username.length ∨
        COLUMN_EMAIL_SIZE < r.email.length) := by
      push_neg
      exact ⟨hu, he⟩
    have h14 : ROWS_PER_PAGE = 14 := by decide
    have hcap : capacity = 1400 := by decide
    have hpn : page_for t.num_rows < TABLE_MAX_PAGES := by
      unfold page_for
      rw [h14]
      have : TABLE_MAX_PAGES = 100 := by decide
      rw [this]
      omega
    unfold executeInsert
    rw [if_neg hnotfull, if_neg hsize]
    unfold get_or_allocate_page
    rw [if_pos hpn]
    cases hg : t.pages.getD (page_for t.num_rows) none with
    | some pg => exact ⟨_, rfl, rfl⟩
    | none => exact ⟨_, rfl, rfl⟩

/-- Witness for claim C5: the invariant, the TableFull failure and the
successful increment at concrete tables. -/
theorem claim_C5_capacity_witness :
    (runInserts [emptyRow] emptyTable).num_rows ≤ capacity ∧
    executeInsert emptyRow { num_rows := capacity, pages := [] } = .error .TableFull ∧
    (∃ t1, executeInsert emptyRow emptyTable = .ok t1 ∧
      t1.num_rows = emptyTable.num_rows + 1) :=
  ⟨claim_C5_capacity.1 [emptyRow] emptyTable (by decide),
    (claim_C5_capacity.2.1 emptyRow { num_rows := capacity, pages := [] } rfl).1,
    claim_C5_capacity.2.2 emptyRow emptyTable (by decide) (by decide) (by decide)⟩

/-- Claim C7: an insert whose username field is longer than 32 bytes
fails with FieldTooLong and leaves the table size unchanged (stated for a
non-full table; at capacity the TableFull check of spec section 4.5 fires
before the encode refusal). -/
theorem claim_C7_field_too_long (r : Row) (t : Table)
    (hlen : COLUMN_USERNAME_SIZE < r.username.length)
    (hnotfull : t.num_rows < capacity) :
    executeInsert r t = .error .FieldTooLong ∧ runInserts [r] t = t := by
  have h1 : executeInsert r t = .error .FieldTooLong := by
    unfold executeInsert
    rw [if_neg (by omega), if_pos (Or.inl hlen)]
  refine ⟨h1, ?_⟩
  rw [runInserts, h1]
  rfl

/-- Witness for claim C7: the spec scenario of a 33-byte username, on the
empty table. -/
theorem claim_C7_field_too_long_witness :
    executeInsert { id := 1, username := List.replicate 33 97, email := [98] } emptyTable
        = .error .FieldTooLong ∧
      runInserts [{ id := 1, username := List.replicate 33 97, email := [98] }] emptyTable
        = emptyTable :=
  claim_C7_field_too_long { id := 1, username := List.replicate 33 97, email := [98] }
    emptyTable (by decide) (by decide)

theorem getD_set_self (l : List (Option (List Byte))) (i : Nat) (x : Option (List Byte))
    (h : i < l.length) : (l.set i x).getD i none = x := by
  rw [List.getD_eq_getElem?_getD, List.getElem?_set_self h]
  rfl

theorem getD_set_ne (l : List (Option (List Byte))) (i j : Nat) (x : Option (List Byte))
    (h : i ≠ j) : (l.set i x).getD j none = l.getD j none := by
  rw [List.getD_eq_getElem?_getD, List.getElem?_set_ne h, ← List.getD_eq_getElem?_getD]

theorem getD_append_lt (l l' : List Row) (i : Nat) (h : i < l.length) :
    (l ++ l').getD i emptyRow = l.getD i emptyRow := by
  rw [List.getD_eq_getElem?_getD, List.getElem?_append_left h, ← List.getD_eq_getElem?_getD]

theorem getD_append_len (l : List Row) (x : Row) :
    (l ++ [x]).getD l.length emptyRow = x := by
  rw [List.getD_eq_getElem?_getD, List.getElem?_concat_length]
  rfl

theorem offset_in_page_bound (n : Nat) : offset_in_page n + ROW_SIZE ≤ PAGE_SIZE := by
  unfold offset_in_page
  have h14 : ROWS_PER_PAGE = 14 := by decide
  have h291 : ROW_SIZE = 291 := by decide
  have h4096 : PAGE_SIZE = 4096 := by decide
  rw [h14, h291, h4096]
  omega

theorem offset_lt_same_page (i n : Nat) (hlt : i < n) (hpage : page_for i = page_for n) :
    offset_in_page i + ROW_SIZE ≤ offset_in_page n := by
  unfold page_for at hpage
  unfold offset_in_page
  have h14 : ROWS_PER_PAGE = 14 := by decide
  have h291 : ROW_SIZE = 291 := by decide
  rw [h14, h291]
  rw [h14] at hpage
  omega

theorem page_for_lt (n : Nat) (h : n < capacity) : page_for n < TABLE_MAX_PAGES := by
  unfold page_for
  have h14 : ROWS_PER_PAGE = 14 := by decide
  have h100 : TABLE_MAX_PAGES = 100 := by decide
  have hcap : capacity = 1400 := by decide
  rw [h14, h100]
  rw [hcap] at h
  omega

theorem rows_per_page_mul_page_for_le (i : Nat) : ROWS_PER_PAGE * page_for i ≤ i := by
  unfold page_for
  exact Nat.mul_div_le i ROWS_PER_PAGE |>.trans_eq rfl |>.trans (le_refl i) |>.trans (le_refl i)

theorem encode_padRow (r : Row) (hu : r.username.length ≤ COLUMN_USERNAME_SIZE)
    (he : r.email.length ≤ COLUMN_EMAIL_SIZE) :
    encode (padRow r)
      = idBytes r.id ++ padTo USERNAME_SIZE r.username ++ padTo EMAIL_SIZE r.email := by
  unfold encode
  apply serialize_row_eq
  · exact length_padTo USERNAME_SIZE r.username hu
  · exact length_padTo EMAIL_SIZE r.email he
  · simp

theorem length_encode_padRow (r : Row) (hu : r.username.length ≤ COLUMN_USERNAME_SIZE)
    (he : r.email.length ≤ COLUMN_EMAIL_SIZE) :
    (encode (padRow r)).length = ROW_SIZE := by
  rw [encode_padRow r hu he]
  simp only [List.length_append, length_idBytes,
    length_padTo USERNAME_SIZE r.username hu, length_padTo EMAIL_SIZE r.email he]
  decide

theorem decode_encode_padRow (r : Row) (hid : r.id < 4294967296)
    (hu : r.username.length ≤ COLUMN_USERNAME_SIZE)
    (he : r.email.length ≤ COLUMN_EMAIL_SIZE) :
    deserialize_row (encode (padRow r)) = padRow r := by
  unfold encode
  exact roundtrip_struct (padRow r) (List.replicate ROW_SIZE 0) hid
    (length_padTo USERNAME_SIZE r.username hu) (length_padTo EMAIL_SIZE r.email he) (by simp)

theorem takeWhile_append_zeros (l : List Byte) (k : Nat) (h0 : ∀ b ∈ l, b ≠ 0) :
    (l ++ List.replicate k 0).takeWhile (fun b => b != 0) = l := by
  induction l with
  | nil => simp [List.takeWhile_replicate]
  | cons b bs ih =>
    have hb : (b != 0) = true := by
      have := h0 b (by simp)
      simpa using this
    simp only [List.cons_append, List.takeWhile_cons, hb, if_true]
    rw [ih (fun x hx => h0 x (by simp [hx]))]

theorem stripField_padTo (n : Nat) (l : List Byte) (h0 : ∀ b ∈ l, b ≠ 0) :
    stripField (padTo n l) = l := by
  unfold stripField padTo
  exact takeWhile_append_zeros l (n - l.length) h0

theorem stripRow_padRow (r : Row) (hu0 : ∀ b ∈ r.username, b ≠ 0)
    (he0 : ∀ b ∈ r.email, b ≠ 0) :
    stripRow (padRow r) = r := by
  unfold stripRow padRow
  simp only [stripField_padTo USERNAME_SIZE r.username hu0,
    stripField_padTo EMAIL_SIZE r.email he0]

theorem map_range_getD (rows : List Row) (f : Nat → Row)
    (h : ∀ i, i < rows.length → f i = rows.getD i emptyRow) :
    (List.range rows.length).map f = rows := by
  apply List.ext_getElem
  · simp
  · intro n h1 h2
    simp only [List.getElem_map, List.getElem_range]
    rw [h n (by simpa using h1)]
    exact List.getD_eq_getElem rows emptyRow h2

theorem readSlot_eq_of_getD (t : Table) (i : Nat) (pg : List Byte)
    (h : t.pages.getD (page_for i) none = some pg) :
    readSlot t i = readBytes pg (offset_in_page i) ROW_SIZE := by
  unfold readSlot
  rw [h]

/-- Preservation of the table invariant by one insert: writing the encoded
row into the slot of index `num_rows` inside a full-size base page (the
existing page or a fresh zero page) extends the invariant by that row. -/
theorem inv_after_insert (prev : List Row) (t : Table) (r : Row) (pgBase : List Byte)
    (hnum : t.num_rows = prev.length)
    (hplen : t.pages.length = TABLE_MAX_PAGES)
    (hpglen : ∀ p pg, t.pages.getD p none = some pg → pg.length = PAGE_SIZE)
    (halloc : ∀ p, ROWS_PER_PAGE * p < prev.length → t.pages.getD p none ≠ none)
    (hslot : ∀ i, i < prev.length → readSlot t i = encode (padRow (prev.getD i emptyRow)))
    (hlt : prev.length < capacity)
    (hu : r.username.length ≤ COLUMN_USERNAME_SIZE)
    (he : r.email.length ≤ COLUMN_EMAIL_SIZE)
    (hbase : pgBase.length = PAGE_SIZE)
    (hbslot : ∀ i, i < prev.length → page_for i = page_for t.num_rows →
      readBytes pgBase (offset_in_page i) ROW_SIZE = encode (padRow (prev.getD i emptyRow))) :
    TableInv (prev ++ [r])
      { num_rows := t.num_rows + 1
        pages := t.pages.set (page_for t.num_rows)
          (some (writeBytes pgBase (offset_in_page t.num_rows) (encode (padRow r)))) } := by
  have henclen : (encode (padRow r)).length = ROW_SIZE := length_encode_padRow r hu he
  have hpn : page_for t.num_rows < TABLE_MAX_PAGES := by
    rw [hnum]
    exact page_for_lt prev.length hlt
  have hpn' : page_for t.num_rows < t.pages.length := by
    rw [hplen]
    exact hpn
  have hfit : offset_in_page t.num_rows + (encode (padRow r)).length ≤ pgBase.length := by
    rw [hbase, henclen]
    exact offset_in_page_bound t.num_rows
  have h14 : ROWS_PER_PAGE = 14 := by decide
  refine ⟨by simp [hnum], by simp; omega, by simp [List.length_set, hplen], ?_, ?_, ?_⟩
  · -- every allocated page is a full page
    intro p pg' hp'
    by_cases hpp : page_for t.num_rows = p
    · rw [← hpp] at hp'
      rw [getD_set_self _ _ _ hpn'] at hp'
      have hpg' : pg' = writeBytes pgBase (offset_in_page t.num_rows) (encode (padRow r)) :=
        (Option.some.inj hp').symm
      rw [hpg', length_writeBytes pgBase _ _ hfit]
      exact hbase
    · rw [getD_set_ne _ _ _ _ hpp] at hp'
      exact hpglen p pg' hp'
  · -- every page a stored row maps into is allocated
    intro p hp
    simp only [List.length_append, List.length_singleton] at hp
    by_cases hpp : page_for t.num_rows = p
    · rw [← hpp, getD_set_self _ _ _ hpn']
      simp
    · rw [getD_set_ne _ _ _ _ hpp]
      apply halloc
      rw [h14] at hp ⊢
      rcases Nat.lt_or_ge (14 * p) prev.length with hl2 | hge
      · exact hl2
      · exfalso
        apply hpp
        unfold page_for
        rw [hnum, h14]
        omega
  · -- slot contents
    intro i hi
    simp only [List.length_append, List.length_singleton] at hi
    by_cases hend : i = prev.length
    · subst hend
      rw [getD_append_len]
      have hpf : page_for prev.length = page_for t.num_rows := by rw [hnum]
      have hgd :
          (({ num_rows := t.num_rows + 1,
              pages := t.pages.set (page_for t.num_rows)
                (some (writeBytes pgBase (offset_in_page t.num_rows) (encode (padRow r)))) } :
                Table)).pages.getD (page_for prev.length) none
          = some (writeBytes pgBase (offset_in_page t.num_rows) (encode (padRow r))) := by
        rw [hpf]
        exact getD_set_self _ _ _ hpn'
      rw [readSlot_eq_of_getD _ _ _ hgd]
      rw [show offset_in_page prev.length = offset_in_page t.num_rows from by rw [hnum]]
      rw [← henclen]
      exact readBytes_writeBytes_self pgBase _ _ hfit
    · have hi' : i < prev.length := by omega
      rw [getD_append_lt prev [r] i hi']
      by_cases hpp : page_for i = page_for t.num_rows
      · have hgd :
            (({ num_rows := t.num_rows + 1,
                pages := t.pages.set (page_for t.num_rows)
                  (some (writeBytes pgBase (offset_in_page t.num_rows) (encode (padRow r)))) } :
                  Table)).pages.getD (page_for i) none
            = some (writeBytes pgBase (offset_in_page t.num_rows) (encode (padRow r))) := by
          rw [hpp]
          exact getD_set_self _ _ _ hpn'
        rw [readSlot_eq_of_getD _ _ _ hgd]
        rw [readBytes_writeBytes_below pgBase _ (offset_in_page i) ROW_SIZE
          (offset_in_page t.num_rows)
          (offset_lt_same_page i t.num_rows (by omega) hpp) hfit]
        exact hbslot i hi' hpp
      · have hrs :
            readSlot
              ({ num_rows := t.num_rows + 1,
                 pages := t.pages.set (page_for t.num_rows)
                   (some (writeBytes pgBase (offset_in_page t.num_rows) (encode (padRow r)))) } :
                 Table) i = readSlot t i := by
          unfold readSlot
          rw [getD_set_ne _ _ _ _ (fun hq => hpp hq.symm)]
        rw [hrs]
        exact hslot i hi'

/-- One successful insert step below capacity, with the invariant carried
to the extended row sequence. -/
theorem insert_step (prev : List Row) (t : Table) (r : Row)
    (hInv : TableInv prev t) (hv : validContent r) (hlt : prev.length < capacity) :
    ∃ t1, executeInsert r t = .ok t1 ∧ TableInv (prev ++ [r]) t1 := by
  obtain ⟨hnum, hle, hplen, hpglen, halloc, hslot⟩ := hInv
  obtain ⟨hid, hu, he, hu0, he0⟩ := hv
  have hnotfull : ¬ t.num_rows = capacity := by omega
  have hsize : ¬ (COLUMN_USERNAME_SIZE < r.username.length ∨
      COLUMN_EMAIL_SIZE < r.email.length) := by
    push_neg
    exact ⟨hu, he⟩
  have hpn : page_for t.num_rows < TABLE_MAX_PAGES := by
    rw [hnum]
    exact page_for_lt prev.length hlt
  unfold executeInsert
  rw [if_neg hnotfull, if_neg hsize]
  unfold get_or_allocate_page
  rw [if_pos hpn]
  cases hg : t.pages.getD (page_for t.num_rows) none with
  | some pg =>
    refine ⟨_, rfl, ?_⟩
    apply inv_after_insert prev t r pg hnum hplen hpglen halloc hslot hlt hu he
      (hpglen _ pg hg)
    intro i hi hpp
    have hs := hslot i hi
    rw [readSlot_eq_of_getD t i pg (by rw [hpp]; exact hg)] at hs
    exact hs
  | none =>
    refine ⟨_, rfl, ?_⟩
    rw [List.set_set]
    apply inv_after_insert prev t r (List.replicate PAGE_SIZE 0) hnum hplen hpglen halloc
      hslot hlt hu he (by simp)
    intro i hi hpp
    exfalso
    have hneed : t.pages.getD (page_for i) none ≠ none :=
      halloc (page_for i) (lt_of_le_of_lt (rows_per_page_mul_page_for_le i) hi)
    rw [hpp, hg] at hneed
    exact hneed rfl

theorem getD_replicate_none (n p : Nat) :
    (List.replicate n (none : Option (List Byte))).getD p none = none := by
  rw [List.getD_eq_getElem?_getD, List.getElem?_replicate]
  by_cases hp : p < n <;> simp [hp]

theorem tableInv_empty : TableInv [] emptyTable := by
  refine ⟨rfl, by decide, by simp [emptyTable], ?_, ?_, ?_⟩
  · intro p pg h
    rw [show emptyTable.pages = List.replicate TABLE_MAX_PAGES none from rfl,
      getD_replicate_none] at h
    exact absurd h (by simp)
  · intro p h
    simp at h
  · intro i h
    simp at h

/-- Inserting a sequence of in-bounds rows that fits below capacity
succeeds and extends the invariant. -/
theorem insertAll_ok (rs : List Row) (prev : List Row) (t : Table)
    (hInv : TableInv prev t) (hv : ∀ r ∈ rs, validContent r)
    (hcap : prev.length + rs.length ≤ capacity) :
    ∃ tf, insertAll rs t = .ok tf ∧ TableInv (prev ++ rs) tf := by
  induction rs generalizing prev t with
  | nil =>
    refine ⟨t, by rw [insertAll], ?_⟩
    simpa using hInv
  | cons r rest ih =>
    have hlt : prev.length < capacity := by
      simp only [List.length_cons] at hcap
      omega
    obtain ⟨t1, heq, hInv1⟩ := insert_step prev t r hInv (hv r (by simp)) hlt
    obtain ⟨tf, hok, hInvf⟩ := ih (prev ++ [r]) t1 hInv1
      (fun x hx => hv x (by simp [hx]))
      (by simp only [List.length_append, List.length_singleton, List.length_cons,
            List.length_nil] at hcap ⊢
          omega)
    refine ⟨tf, ?_, ?_⟩
    · rw [insertAll, heq]
      exact hok
    · rw [List.append_assoc, List.singleton_append] at hInvf
      exact hInvf

/-- A table satisfying the invariant for `rows` scans back exactly
`rows`. -/
theorem select_of_inv (rows : List Row) (t : Table)
    (hInv : TableInv rows t) (hv : ∀ r ∈ rows, validContent r) :
    executeSelect t = rows := by
  unfold executeSelect
  rw [hInv.1]
  apply map_range_getD
  intro i hi
  rw [hInv.2.2.2.2.2 i hi]
  have hmem : rows.getD i emptyRow ∈ rows := by
    rw [List.getD_eq_getElem rows emptyRow hi]
    exact List.getElem_mem hi
  have hvi := hv _ hmem
  rw [decode_encode_padRow _ hvi.1 hvi.2.1 hvi.2.2.1]
  exact stripRow_padRow _ hvi.2.2.2.1 hvi.2.2.2.2

/-- Claim C6: for every sequence of successful inserts (valid rows, at
most the table capacity of them, starting from the empty table), Select
yields exactly the inserted rows, in insertion order, with no duplication
and no omission. -/
theorem claim_C6_select_order (rs : List Row)
    (hv : ∀ r ∈ rs, validContent r) (hlen : rs.length ≤ capacity) :
    ∃ t, insertAll rs emptyTable = .ok t ∧ executeSelect t = rs := by
  obtain ⟨tf, hok, hInvf⟩ := insertAll_ok rs [] emptyTable tableInv_empty hv
    (by simpa using hlen)
  refine ⟨tf, hok, ?_⟩
  rw [List.nil_append] at hInvf
  exact select_of_inv rs tf hInvf hv

/-- Witness for claim C6: inserting the spec scenario row
(1, "fendross", "foo@bar.com") and scanning yields exactly that row. -/
theorem claim_C6_select_order_witness :
    ∃ t, insertAll [scenarioRow] emptyTable = .ok t ∧
      executeSelect t = [scenarioRow] :=
  claim_C6_select_order [scenarioRow] (by decide) (by decide)

/-- Counterexample to claim C8: a failed input read (end of input or a
`getline` error) terminates the process with EXIT_FAILURE although it is
not an explicit exit command, so an explicit exit command is not the only
way the process terminates. -/
theorem claim_C8_counterexample :
    replStep none { table := emptyTable, input_buffer := [] }
        = .exited 1 ["fensql> ", "Error reading input.\n"] ∧
      (1 : Nat) ≠ 0 ∧
      (none : Option (List Char)) ≠ some ".exit".toList :=
  ⟨rfl, by decide, by decide⟩

/-- Claim C8 (amended): every failed command — unrecognized meta-command,
syntax error, unrecognized statement — is reported and the loop
continues; the process terminates only on the explicit ".exit" command
(exit status 0) or on an input read failure (exit status 1). -/
theorem claim_C8_errors_not_fatal :
    (∀ (rest : List Char) (st : ProgState), ('.' :: rest) ≠ ".exit".toList →
      replStep (some ('.' :: rest)) st
        = .continued { st with input_buffer := '.' :: rest }
            ["fensql> ",
              "Unrecognized command \x27" ++ String.mk ('.' :: rest) ++ "\x27\n"]) ∧
    (∀ (buf : List Char) (st : ProgState), buf.headD (Char.ofNat 0) ≠ '.' →
      (prepare_statement buf defaultStatement).1 = .PREPARE_SYNTAX_ERROR →
      replStep (some buf) st
        = .continued { st with input_buffer := buf }
            ["fensql> ", "Syntax error detected for \x27" ++ String.mk buf ++ "\x27.\n"]) ∧
    (∀ (buf : List Char) (st : ProgState), buf.headD (Char.ofNat 0) ≠ '.' →
      (prepare_statement buf defaultStatement).1 = .PREPARE_UNRECOGNIZED_STATEMENT →
      replStep (some buf) st
        = .continued { st with input_buffer := buf }
            ["fensql> ",
              "Unrecognized keyword at the start of \x27" ++ String.mk buf ++ "\x27.\n"]) ∧
    (∀ st : ProgState, replStep (some ".exit".toList) st = .exited 0 ["fensql> "]) ∧
    (∀ (inp : Option (List Char)) (st : ProgState) (code : Nat) (out : List String),
      replStep inp st = .exited code out → inp = none ∨ inp = some ".exit".toList) := by
  refine ⟨?_, ?_, ?_, ?_, ?_⟩
  · intro rest st hne
    have hm : execute_meta_command ('.' :: rest)
        = .ret .META_COMMAND_UNRECOGNIZED_COMMAND := by
      unfold execute_meta_command
      rw [if_neg hne]
    simp only [replStep]
    rw [hm]
  · intro buf st hhead hp
    simp only [replStep]
    split
    · simp at hhead
    · split
      · rename_i heq2
        rw [heq2] at hp
        simp at hp
      · rfl
      · rename_i heq2
        rw [heq2] at hp
        simp at hp
  · intro buf st hhead hp
    simp only [replStep]
    split
    · simp at hhead
    · split
      · rename_i heq2
        rw [heq2] at hp
        simp at hp
      · rename_i heq2
        rw [heq2] at hp
        simp at hp
      · rfl
  · intro st
    rfl
  · intro inp st code out h
    cases inp with
    | none => exact Or.inl rfl
    | some buf =>
      simp only [replStep] at h
      split at h
      · rename_i tail
        split at h
        · rename_i c heq2
          by_cases hb : ('.' :: tail) = ".exit".toList
          · exact Or.inr (by rw [hb])
          · unfold execute_meta_command at heq2
            rw [if_neg hb] at heq2
            simp at heq2
        · simp at h
        · simp at h
      · split at h
        · simp at h
        · simp at h
        · simp at h

/-- Witness for the amended claim C8 at concrete inputs: ".help" is
reported unrecognized and the loop continues; "insert" alone is a syntax
error; "foo" is an unrecognized keyword; ".exit" exits with status 0; the
".exit" termination is via the exit command. -/
theorem claim_C8_errors_not_fatal_witness :
    replStep (some ('.' :: "help".toList)) { table := emptyTable, input_buffer := [] }
        = .continued { table := emptyTable, input_buffer := '.' :: "help".toList }
            ["fensql> ",
              "Unrecognized command \x27" ++ String.mk ('.' :: "help".toList) ++ "\x27\n"] ∧
      replStep (some "insert".toList) { table := emptyTable, input_buffer := [] }
        = .continued { table := emptyTable, input_buffer := "insert".toList }
            ["fensql> ",
              "Syntax error detected for \x27" ++ String.mk "insert".toList ++ "\x27.\n"] ∧
      replStep (some "foo".toList) { table := emptyTable, input_buffer := [] }
        = .continued { table := emptyTable, input_buffer := "foo".toList }
            ["fensql> ",
              "Unrecognized keyword at the start of \x27"
                ++ String.mk "foo".toList ++ "\x27.\n"] ∧
      replStep (some ".exit".toList) { table := emptyTable, input_buffer := [] }
        = .exited 0 ["fensql> "] ∧
      ((some ".exit".toList : Option (List Char)) = none ∨
        (some ".exit".toList : Option (List Char)) = some ".exit".toList) :=
  ⟨claim_C8_errors_not_fatal.1 "help".toList _ (by decide),
    claim_C8_errors_not_fatal.2.1 "insert".toList _ (by decide) (by decide),
    claim_C8_errors_not_fatal.2.2.1 "foo".toList _ (by decide) (by decide),
    claim_C8_errors_not_fatal.2.2.2.1 _,
    claim_C8_errors_not_fatal.2.2.2.2 (some ".exit".toList)
      { table := emptyTable, input_buffer := [] } 0 ["fensql> "]
      (claim_C8_errors_not_fatal.2.2.2.1 _)⟩

/-- Counterexample to claim C9: the program does not recognize two
meta-commands — any two inputs on which meta dispatch does something
other than report an unrecognized command are both ".exit", so no two
distinct recognized meta-commands exist. -/
theorem claim_C9_counterexample :
    ¬ ∃ b1 b2 : List Char,
        b1 ≠ b2 ∧
        execute_meta_command b1 ≠ .ret .META_COMMAND_UNRECOGNIZED_COMMAND ∧
        execute_meta_command b2 ≠ .ret .META_COMMAND_UNRECOGNIZED_COMMAND := by
  rintro ⟨b1, b2, hne, h1, h2⟩
  have e1 : b1 = ".exit".toList := by
    by_contra hc
    exact h1 (by unfold execute_meta_command; rw [if_neg hc])
  have e2 : b2 = ".exit".toList := by
    by_contra hc
    exact h2 (by unfold execute_meta_command; rw [if_neg hc])
  exact hne (e1.trans e2.symm)

/-- Claim C9 (amended): the program recognizes exactly one meta-command,
".exit", which exits the process with success; meta dispatch on every
other input line (in particular every other line beginning with a dot)
returns META_COMMAND_UNRECOGNIZED_COMMAND, and the loop reports the line
as unrecognized and continues. -/
theorem claim_C9_meta_commands :
    execute_meta_command ".exit".toList = .exitProcess 0 ∧
    (∀ buf : List Char, buf ≠ ".exit".toList →
      execute_meta_command buf = .ret .META_COMMAND_UNRECOGNIZED_COMMAND) ∧
    (∀ b1 b2 : List Char,
      execute_meta_command b1 ≠ .ret .META_COMMAND_UNRECOGNIZED_COMMAND →
      execute_meta_command b2 ≠ .ret .META_COMMAND_UNRECOGNIZED_COMMAND → b1 = b2) ∧
    (∀ (rest : List Char) (st : ProgState), ('.' :: rest) ≠ ".exit".toList →
      replStep (some ('.' :: rest)) st
        = .continued { st with input_buffer := '.' :: rest }
            ["fensql> ",
              "Unrecognized command \x27" ++ String.mk ('.' :: rest) ++ "\x27\n"]) := by
  refine ⟨by unfold execute_meta_command; rw [if_pos rfl], ?_, ?_, ?_⟩
  · intro buf h
    unfold execute_meta_command
    rw [if_neg h]
  · intro b1 b2 h1 h2
    have e1 : b1 = ".exit".toList := by
      by_contra hc
      exact h1 (by unfold execute_meta_command; rw [if_neg hc])
    have e2 : b2 = ".exit".toList := by
      by_contra hc
      exact h2 (by unfold execute_meta_command; rw [if_neg hc])
    exact e1.trans e2.symm
  · intro rest st hne
    have hm : execute_meta_command ('.' :: rest)
        = .ret .META_COMMAND_UNRECOGNIZED_COMMAND := by
      unfold execute_meta_command
      rw [if_neg hne]
    simp only [replStep]
    rw [hm]

/-- Witness for the amended claim C9: ".help" is not ".exit" and is
dispatched as unrecognized, and the loop reports it and continues. -/
theorem claim_C9_meta_commands_witness :
    execute_meta_command ".help".toList = .ret .META_COMMAND_UNRECOGNIZED_COMMAND ∧
      replStep (some ('.' :: "help".toList)) { table := emptyTable, input_buffer := [] }
        = .continued { table := emptyTable, input_buffer := '.' :: "help".toList }
            ["fensql> ",
              "Unrecognized command \x27" ++ String.mk ('.' :: "help".toList) ++ "\x27\n"] :=
  ⟨claim_C9_meta_commands.2.1 ".help".toList (by decide),
    claim_C9_meta_commands.2.2.2 "help".toList
      { table := emptyTable, input_buffer := [] } (by decide)⟩

theorem prepare_eq_syntax0 (buf : List Char) (st : Statement)
    (hin : buf.take 6 = "insert".toList)
    (hpi : parseInt (buf.drop 6) = none) :
    prepare_statement buf st
      = (.PREPARE_SYNTAX_ERROR, { st with type := .STATEMENT_INSERT }) := by
  unfold prepare_statement
  rw [if_pos hin]
  simp only [hpi]

theorem prepare_eq_syntax1 (buf : List Char) (st : Statement) (n : Int) (r1 : List Char)
    (hin : buf.take 6 = "insert".toList)
    (hpi : parseInt (buf.drop 6) = some (n, r1))
    (hps1 : parseStr r1 = none) :
    prepare_statement buf st
      = (.PREPARE_SYNTAX_ERROR,
          { type := .STATEMENT_INSERT,
            row_to_insert := { id := intToUint32 n,
                               username := st.row_to_insert.username,
                               email := st.row_to_insert.email } }) := by
  unfold prepare_statement
  rw [if_pos hin]
  simp only [hpi, hps1]

theorem prepare_eq_syntax2 (buf : List Char) (st : Statement) (n : Int)
    (r1 u r2 : List Char)
    (hin : buf.take 6 = "insert".toList)
    (hpi : parseInt (buf.drop 6) = some (n, r1))
    (hps1 : parseStr r1 = some (u, r2))
    (hps2 : parseStr r2 = none) :
    prepare_statement buf st
      = (.PREPARE_SYNTAX_ERROR,
          { type := .STATEMENT_INSERT,
            row_to_insert := { id := intToUint32 n,
                               username := u.map Char.toNat,
                               email := st.row_to_insert.email } }) := by
  unfold prepare_statement
  rw [if_pos hin]
  simp only [hpi, hps1, hps2]

theorem prepare_eq_success (buf : List Char) (st : Statement) (n : Int)
    (r1 u r2 e r3 : List Char)
    (hin : buf.take 6 = "insert".toList)
    (hpi : parseInt (buf.drop 6) = some (n, r1))
    (hps1 : parseStr r1 = some (u, r2))
    (hps2 : parseStr r2 = some (e, r3)) :
    prepare_statement buf st
      = (.PREPARE_SUCCESS,
          { type := .STATEMENT_INSERT,
            row_to_insert := { id := intToUint32 n,
                               username := u.map Char.toNat,
                               email := e.map Char.toNat } }) := by
  unfold prepare_statement
  rw [if_pos hin]
  simp only [hpi, hps1, hps2]

/-- Claim C10: classification behaviour of prepare_statement — any line
whose first six characters are "insert" is typed as an insert (so
"insertion" too), succeeding exactly when an integer and two
whitespace-delimited tokens parse after the keyword and giving a syntax
error otherwise; exactly the line "select" prepares a select; every other
line is an unrecognized statement; and no length check is applied to the
parsed username or email (a 33-byte username is accepted). -/
theorem claim_C10_prepare (buf : List Char) (st : Statement) :
    (buf.take 6 = "insert".toList →
      (prepare_statement buf st).2.type = .STATEMENT_INSERT ∧
      ((prepare_statement buf st).1 = .PREPARE_SUCCESS ↔
        ∃ n r1 u r2 e r3, parseInt (buf.drop 6) = some (n, r1) ∧
          parseStr r1 = some (u, r2) ∧ parseStr r2 = some (e, r3)) ∧
      ((prepare_statement buf st).1 = .PREPARE_SUCCESS ∨
        (prepare_statement buf st).1 = .PREPARE_SYNTAX_ERROR)) ∧
    (buf = "select".toList →
      prepare_statement buf st = (.PREPARE_SUCCESS, { st with type := .STATEMENT_SELECT })) ∧
    (buf.take 6 ≠ "insert".toList → buf ≠ "select".toList →
      prepare_statement buf st = (.PREPARE_UNRECOGNIZED_STATEMENT, st)) ∧
    (prepare_statement "insertion".toList defaultStatement).2.type = .STATEMENT_INSERT ∧
    (prepare_statement "insertion".toList defaultStatement).1 = .PREPARE_SYNTAX_ERROR ∧
    (prepare_statement
        ("insert 1 aaaaaaaaaaaaaaaaaaaaaaaaaaaaaaaaa bb".toList) defaultStatement).1
      = .PREPARE_SUCCESS ∧
    (prepare_statement
          ("insert 1 aaaaaaaaaaaaaaaaaaaaaaaaaaaaaaaaa bb".toList)
          defaultStatement).2.row_to_insert.username.length = 33 := by
  refine ⟨?_, ?_, ?_, by decide, by decide, by decide, by decide⟩
  · intro hin
    cases hpi : parseInt (buf.drop 6) with
    | none =>
      rw [prepare_eq_syntax0 buf st hin hpi]
      refine ⟨rfl, ?_, Or.inr rfl⟩
      constructor
      · intro h
        simp at h
      · rintro ⟨n', r1', u', r2', e', r3', h1, h2, h3⟩
        exact Option.noConfusion h1
    | some v =>
      obtain ⟨n, r1⟩ := v
      cases hps1 : parseStr r1 with
      | none =>
        rw [prepare_eq_syntax1 buf st n r1 hin hpi hps1]
        refine ⟨rfl, ?_, Or.inr rfl⟩
        constructor
        · intro h
          simp at h
        · rintro ⟨n', r1', u', r2', e', r3', h1, h2, h3⟩
          simp at h1
          rw [← h1.2, hps1] at h2
          exact Option.noConfusion h2
      | some w =>
        obtain ⟨u, r2⟩ := w
        cases hps2 : parseStr r2 with
        | none =>
          rw [prepare_eq_syntax2 buf st n r1 u r2 hin hpi hps1 hps2]
          refine ⟨rfl, ?_, Or.inr rfl⟩
          constructor
          · intro h
            simp at h
          · rintro ⟨n', r1', u', r2', e', r3', h1, h2, h3⟩
            simp at h1
            rw [← h1.2, hps1] at h2
            simp at h2
            rw [← h2.2, hps2] at h3
            exact Option.noConfusion h3
        | some z =>
          obtain ⟨e, r3⟩ := z
          rw [prepare_eq_success buf st n r1 u r2 e r3 hin hpi hps1 hps2]
          exact ⟨rfl, iff_of_true rfl ⟨n, r1, u, r2, e, r3, rfl, hps1, hps2⟩, Or.inl rfl⟩
  · intro hsel
    subst hsel
    unfold prepare_statement
    rw [if_neg (by decide), if_pos rfl]
  · intro hnotins hnotsel
    unfold prepare_statement
    rw [if_neg hnotins, if_neg hnotsel]

/-- Witness for claim C10 at concrete lines: "select" prepares a select
and "foo" is unrecognized. -/
theorem claim_C10_prepare_witness :
    prepare_statement "select".toList defaultStatement
        = (.PREPARE_SUCCESS, { defaultStatement with type := .STATEMENT_SELECT }) ∧
      prepare_statement "foo".toList defaultStatement
        = (.PREPARE_UNRECOGNIZED_STATEMENT, defaultStatement) :=
  ⟨(claim_C10_prepare "select".toList defaultStatement).2.1 rfl,
    (claim_C10_prepare "foo".toList defaultStatement).2.2.1 (by decide) (by decide)⟩

end Fensql
